import Mathlib

/-!
# Verification of the document-conversion core

Shallow embedding of the document conversion pipeline of
`src/final-test/src/index.ts` (class `DocumentConverter` and the
`batch_convert` tool loop), together with theorems settling the frozen
claims about it.

Modelling conventions:
* File contents and paths are Lean `String`s; byte sizes are `Nat`.
* The filesystem is a map `String → Option FSFile`; `fs.stat` on a missing
  path is the `fileNotFound` error.
* Third-party codecs (pdf-parse, mammoth, jsdom, marked, turndown,
  html-pdf-node) are opaque collaborators: they are parameters collected in
  a `Codecs` record, exactly as the source treats them as library calls.
* Mutating filesystem operations (`fs.ensureDir`, `fs.writeFile`) are
  recorded as an explicit effect list in program order.
* Thrown `Error` objects are an inductive error type carrying the data that
  the source interpolates into its message strings; `errorMessage` renders
  the exact message text used by the source where it is determined by the
  source (the `fileNotFound` message of node's `stat` is external and only
  approximated).
-/

deriving instance DecidableEq for Except

namespace DocConv

/-! ## Path helpers (model of node `path.basename`, `path.extname`, `path.join`) -/

/-- Characters of the last path component (after the last `/`). -/
def basenameChars (l : List Char) : List Char :=
  l.foldl (fun acc c => if c = '/' then [] else acc ++ [c]) []

/-- Index of the last `.` in a character list, if any. -/
def lastDotIdx : List Char → Option Nat
  | [] => none
  | c :: rest =>
    match lastDotIdx rest with
    | some i => some (i + 1)
    | none => if c = '.' then some 0 else none

/-- Model of node `path.extname` applied to a basename: the suffix from the
last `.`, unless that dot is the first character (dotfiles have no
extension). -/
def extnameChars (b : List Char) : List Char :=
  match lastDotIdx b with
  | none => []
  | some 0 => []
  | some i => b.drop i

/-- Model of node `path.basename`. -/
def basenameOf (p : String) : String :=
  ⟨basenameChars p.data⟩

/-- Model of node `path.extname`. -/
def extnameOf (p : String) : String :=
  ⟨extnameChars (basenameChars p.data)⟩

/-- Model of node `path.basename(p, path.extname(p))`: the basename with its
extension stripped, as used at line 207 of the source. -/
def basenameNoExt (p : String) : String :=
  let b := basenameChars p.data
  let e := extnameChars b
  ⟨b.take (b.length - e.length)⟩

/-- Model of node `path.join` for the simple two-argument uses in the source
(the source never passes segments needing normalization beyond
concatenation with a separator). -/
def pathJoin (d f : String) : String :=
  d ++ "/" ++ f

/-! ## The batch filter's pattern test

The source (lines 385-389) builds the filter as

  `const pattern = file_pattern.replace('*', '.*')`
  `const regex = new RegExp(pattern, 'i')`
  `if (!regex.test(file)) continue`

`String.replace` with a string argument replaces only the FIRST `*`, and
`RegExp.test` is an unanchored, case-insensitive search.  We embed the
regular-expression engine for the fragment those compiled patterns use:
literal characters, the `.` wildcard (which, without the `s` flag, matches
every character except a line terminator), and a `*` quantifier on the
preceding atom.  (Patterns containing other regex metacharacters, or a
quantifier with nothing to repeat, behave differently in JS — the theorems
that generalize over patterns restrict to plain characters.) -/

/-- Characters the JS `.` wildcard matches: everything except the line
terminators LF, CR, LS, PS (the regex has no `s` flag). -/
def notLineTerm (c : Char) : Bool :=
  !(c = '\n' || c = '\r' || c = Char.ofNat 0x2028 || c = Char.ofNat 0x2029)

/-- Case-insensitive character comparison (the `i` flag). -/
def ciEq (a b : Char) : Bool :=
  a.toLower == b.toLower

/-- Compiled regex token: `.` , a literal, `.*`, or `c*`. -/
inductive RTok where
  | any : RTok
  | lit : Char → RTok
  | anyStar : RTok
  | litStar : Char → RTok
deriving DecidableEq

/-- Atom for a single pattern character. -/
def tokOf (c : Char) : RTok :=
  if c = '.' then .any else .lit c

/-- Atom for a pattern character followed by `*`. -/
def starTokOf (c : Char) : RTok :=
  if c = '.' then .anyStar else .litStar c

/-- Compile a pattern character list into tokens (a `*` quantifies the
preceding character). -/
def rcompile : List Char → List RTok
  | [] => []
  | [c] => [tokOf c]
  | c :: c' :: rest =>
    if c' = '*' then starTokOf c :: rcompile rest
    else tokOf c :: rcompile (c' :: rest)

/-- Starred-atom loop: try matching the continuation `k` after consuming any
number of characters accepted by `ok`. -/
def tmatchStar (k : List Char → Bool) (ok : Char → Bool) : List Char → Bool
  | [] => k []
  | x :: xs => k (x :: xs) || (ok x && tmatchStar k ok xs)

/-- Match a token list against a prefix of the text (the rest of the text
may be anything, as in an unanchored regex whose pattern has no `$`). -/
def tmatch : List RTok → List Char → Bool
  | [], _ => true
  | .any :: _, [] => false
  | .any :: ps, x :: xs => notLineTerm x && tmatch ps xs
  | .lit _ :: _, [] => false
  | .lit c :: ps, x :: xs => ciEq c x && tmatch ps xs
  | .anyStar :: ps, s => tmatchStar (tmatch ps) notLineTerm s
  | .litStar c :: ps, s => tmatchStar (tmatch ps) (fun x => ciEq c x) s

/-- Unanchored search: `RegExp.test` succeeds if the pattern matches at any
start position. -/
def rsearch (p : List RTok) : List Char → Bool
  | [] => tmatch p []
  | x :: xs => tmatch p (x :: xs) || rsearch p xs

/-- Model of `file_pattern.replace('*', '.*')`: only the first `*` is
replaced. -/
def replaceFirstStar : List Char → List Char
  | [] => []
  | c :: rest =>
    if c = '*' then '.' :: '*' :: rest
    else c :: replaceFirstStar rest

/-- The batch loop's filter (lines 385-389): does
`new RegExp(file_pattern.replace('*', '.*'), 'i')` accept `name`? -/
def fileMatches (pattern name : String) : Bool :=
  rsearch (rcompile (replaceFirstStar pattern.data)) name.data

/-! ## Spec-side glob semantics (for claim C3)

The spec describes the filter as a case-insensitive single-wildcard glob:
`*` matches any substring, and every other character is matched literally,
against the whole name.  The following definitions follow the spec's words
and exist only to be compared with `fileMatches`. -/

/-- Split a pattern at its first `*`: the literal part before it, and the
part after it if a `*` is present. -/
def splitFirstStar : List Char → List Char × Option (List Char)
  | [] => ([], none)
  | c :: rest =>
    if c = '*' then ([], some rest)
    else
      let p := splitFirstStar rest
      (c :: p.1, p.2)

/-- Case-insensitive equality of character lists. -/
def ciEqList : List Char → List Char → Bool
  | [], [] => true
  | a :: as, b :: bs => ciEq a b && ciEqList as bs
  | _, _ => false

/-- Single-wildcard glob match, following the spec's words: with no `*` the
pattern must equal the whole name (case-insensitively); with a `*` the part
before it must be a prefix, the part after it a suffix, and they must not
overlap. -/
def globMatch (pattern name : String) : Bool :=
  match splitFirstStar pattern.data with
  | (a, none) => ciEqList a name.data
  | (a, some b) =>
    ciEqList a (name.data.take a.length) &&
    ciEqList b (name.data.drop (name.data.length - b.length)) &&
    decide (a.length + b.length ≤ name.data.length)

/-- Pattern characters with no special meaning in a JS regex other than the
`.`/`*` the model covers (used to delimit the generalizing theorems). -/
def plainChar (c : Char) : Bool :=
  c.isAlphanum || c = '.' || c = '*' || c = '-' || c = '_' || c = ' '

/-- No `*` occurs in the list. -/
def starFree : List Char → Bool
  | [] => true
  | c :: rest => if c = '*' then false else starFree rest

/-- The pattern contains at most one `*`. -/
def atMostOneStar (l : List Char) : Bool :=
  match splitFirstStar l with
  | (_, none) => true
  | (_, some b) => starFree b

/-! ## Configuration, codecs, documents, errors -/

/-- `supported_formats` object of the configuration schema (lines 26-29). -/
structure SupportedFormats where
  input : List String
  output : List String
deriving DecidableEq

/-- The configuration schema (lines 23-33).  The optional Smithery API key
is irrelevant to conversion and omitted. -/
structure Config where
  debug : Bool
  max_file_size : Nat
  supported_formats : SupportedFormats
  preserve_formatting : Bool
  output_directory : String
deriving DecidableEq

/-- The zod defaults of the configuration schema. -/
def defaultConfig : Config where
  debug := false
  max_file_size := 10485760
  supported_formats :=
    { input := ["pdf", "docx", "html", "md", "txt"]
      output := ["pdf", "docx", "html", "md", "txt"] }
  preserve_formatting := true
  output_directory := "./converted_documents"

/-- Result of `pdf-parse`: extracted text, page count, info block. -/
structure PdfData where
  text : String
  numpages : Nat
  info : String
deriving DecidableEq

/-- The third-party format codecs, opaque collaborators of the converter.
Fallible library calls return `Except` with the thrown message. -/
structure Codecs where
  /-- `pdfParse(buffer)` (line 143). -/
  pdfParse : String → Except String PdfData
  /-- `mammoth.extractRawText({buffer})` (line 156): raw text and warning
  messages. -/
  mammothRawText : String → Except String (String × List String)
  /-- `new JSDOM(content).window.document.body?.textContent` (line 169):
  `none` when the document has no body. -/
  htmlBodyText : String → Option String
  /-- `dom.window.document.title` (line 174). -/
  htmlTitle : String → String
  /-- `marked(content)` (line 235), markdown to HTML. -/
  marked : String → String
  /-- `turndownService.turndown(content)` (line 248), HTML to markdown
  (the service is constructed with atx headings and fenced code blocks). -/
  turndown : String → String
  /-- `htmlPdf.generatePdf(file, options)` (line 271) with the fixed A4 /
  1-inch-margins options; returns the PDF buffer. -/
  generatePdf : String → Except String String

/-- Format-specific metadata of a read document (§3 of the spec models the
open-ended map as a tagged variant). -/
inductive Metadata where
  | empty : Metadata
  | pdf : Nat → String → Metadata
  | docx : List String → Metadata
  | html : String → Metadata
deriving DecidableEq

/-- The normalized document produced by `readDocument`. -/
structure Document where
  content : String
  format : String
  metadata : Metadata
deriving DecidableEq

/-- The errors thrown by the converter, carrying the data interpolated into
the source's message strings. -/
inductive DocError where
  | sizeLimitExceeded : Nat → DocError
  | unsupportedFormat : String → DocError
  | unsupportedOutputFormat : String → DocError
  | conversionNotImplemented : String → DocError
  | codecFailure : String → DocError
  | fileNotFound : String → DocError
deriving DecidableEq

/-- The message text of each error as built by the source (`fileNotFound`
renders node's ENOENT text, which is external to the repository). -/
def errorMessage : DocError → String
  | .sizeLimitExceeded limit =>
    "File size exceeds maximum limit of " ++ toString limit ++ " bytes"
  | .unsupportedFormat f => "Unsupported file format: " ++ f
  | .unsupportedOutputFormat f => "Unsupported output format: " ++ f
  | .conversionNotImplemented t => "Conversion to " ++ t ++ " not implemented"
  | .codecFailure m => m
  | .fileNotFound p => "ENOENT: no such file or directory, stat " ++ p

/-- What `fs.stat`/`fs.readFile` see of one path: whether it is a regular
file, its reported size, and its content. -/
structure FSFile where
  isFile : Bool
  size : Nat
  content : String
deriving DecidableEq

/-- The filesystem, as read by the converter. -/
def FS : Type := String → Option FSFile

/-- A mutating filesystem operation performed by the converter, in program
order. -/
inductive FSEffect where
  | ensureDir : String → FSEffect
  | writeFile : String → String → FSEffect
deriving DecidableEq

/-! ## The `DocumentConverter` operations -/

/-- `detectFormat` (lines 104-114): pure function of the lowercased
extension. -/
def detectFormat (filePath : String) : String :=
  let ext := (extnameChars (basenameChars filePath.data)).map Char.toLower
  if ext = ".pdf".data then "pdf"
  else if ext = ".docx".data then "docx"
  else if ext = ".html".data ∨ ext = ".htm".data then "html"
  else if ext = ".md".data ∨ ext = ".markdown".data then "md"
  else if ext = ".txt".data then "txt"
  else "unknown"

/-- `readDocument` (lines 117-139): stat, size-limit check, then dispatch on
the detected format.  `readHTML`'s `body?.textContent || content` falls back
to the raw content both when there is no body and when the body text is the
empty string (falsy). -/
def readDocument (cfg : Config) (cx : Codecs) (fs : FS) (filePath : String) :
    Except DocError Document :=
  let format := detectFormat filePath
  match fs filePath with
  | none => .error (.fileNotFound filePath)
  | some f =>
    if f.size > cfg.max_file_size then
      .error (.sizeLimitExceeded cfg.max_file_size)
    else if format = "pdf" then
      match cx.pdfParse f.content with
      | .ok d => .ok ⟨d.text, "pdf", .pdf d.numpages d.info⟩
      | .error m => .error (.codecFailure m)
    else if format = "docx" then
      match cx.mammothRawText f.content with
      | .ok r => .ok ⟨r.1, "docx", .docx r.2⟩
      | .error m => .error (.codecFailure m)
    else if format = "html" then
      let body :=
        match cx.htmlBodyText f.content with
        | some t => if t = "" then f.content else t
        | none => f.content
      .ok ⟨body, "html", .html (cx.htmlTitle f.content)⟩
    else if format = "md" then
      .ok ⟨f.content, "md", .empty⟩
    else if format = "txt" then
      .ok ⟨f.content, "txt", .empty⟩
    else
      .error (.unsupportedFormat format)

/-- `content.replace(/\n/g, '<br>')` (line 241). -/
def nlToBr : List Char → List Char
  | [] => []
  | c :: rest =>
    if c = '\n' then '<' :: 'b' :: 'r' :: '>' :: nlToBr rest
    else c :: nlToBr rest

/-- `convertToHTML` (lines 232-243). -/
def convertToHTML (cx : Codecs) (content fromFormat : String) : String :=
  if fromFormat = "md" then cx.marked content
  else if fromFormat = "txt" then
    "<html><body><pre>" ++ content ++ "</pre></body></html>"
  else if fromFormat = "html" then content
  else "<html><body><p>" ++ (⟨nlToBr content.data⟩ : String) ++ "</p></body></html>"

/-- `convertToMarkdown` (lines 245-254). -/
def convertToMarkdown (cx : Codecs) (content fromFormat : String) : String :=
  if fromFormat = "html" then cx.turndown content
  else if fromFormat = "md" then content
  else content

/-- `convertToPDF` (lines 256-274): render to HTML unless already HTML, run
the layout engine, write the buffer. -/
def convertToPDF (cx : Codecs) (content fromFormat outputPath : String) :
    Except DocError (String × List FSEffect) :=
  let htmlContent :=
    if fromFormat = "html" then content
    else convertToHTML cx content fromFormat
  match cx.generatePdf htmlContent with
  | .ok buf => .ok (outputPath, [.writeFile outputPath buf])
  | .error m => .error (.codecFailure m)

/-- The default destination `path.join(output_directory, fileName + '.' +
outputFormat)` of line 208. -/
def defaultOutputPath (cfg : Config) (inputPath outputFormat : String) : String :=
  pathJoin cfg.output_directory (basenameNoExt inputPath ++ "." ++ outputFormat)

/-- `convertDocument` (lines 196-230): read, check the output format,
ensure the output directory, resolve the destination, dispatch on the
output format, write.  Returns the thrown error or the destination path,
paired with the mutating filesystem operations performed (in order, also on
the failing paths). -/
def convertDocument (cfg : Config) (cx : Codecs) (fs : FS)
    (inputPath outputFormat : String) (outputPath : Option String) :
    Except DocError String × List FSEffect :=
  match readDocument cfg cx fs inputPath with
  | .error e => (.error e, [])
  | .ok doc =>
    if cfg.supported_formats.output.contains outputFormat then
      let finalOutputPath := outputPath.getD (defaultOutputPath cfg inputPath outputFormat)
      if outputFormat = "html" then
        let c := convertToHTML cx doc.content doc.format
        (.ok finalOutputPath,
         [.ensureDir cfg.output_directory, .writeFile finalOutputPath c])
      else if outputFormat = "md" then
        let c := convertToMarkdown cx doc.content doc.format
        (.ok finalOutputPath,
         [.ensureDir cfg.output_directory, .writeFile finalOutputPath c])
      else if outputFormat = "txt" then
        (.ok finalOutputPath,
         [.ensureDir cfg.output_directory, .writeFile finalOutputPath doc.content])
      else if outputFormat = "pdf" then
        match convertToPDF cx doc.content doc.format finalOutputPath with
        | .ok r => (.ok r.1, .ensureDir cfg.output_directory :: r.2)
        | .error e => (.error e, [.ensureDir cfg.output_directory])
      else
        (.error (.conversionNotImplemented outputFormat),
         [.ensureDir cfg.output_directory])
    else
      (.error (.unsupportedOutputFormat outputFormat), [])

/-! ## The `batch_convert` tool loop (lines 372-416) -/

/-- The filter applied to each directory entry when a `file_pattern` is
given (lines 385-389). -/
def patternOk (pat : Option String) (name : String) : Bool :=
  match pat with
  | none => true
  | some p => fileMatches p name

/-- A success line `✓ file → basename(result)` (line 393). -/
def okLine (file dest : String) : String :=
  "✓ " ++ file ++ " → " ++ basenameOf dest

/-- A failure line `✗ file: message` (line 395). -/
def errLine (file : String) (e : DocError) : String :=
  "✗ " ++ file ++ ": " ++ errorMessage e

/-- The loop state: the `results` and `errors` arrays of the source, plus
the filesystem operations performed so far. -/
structure BatchAcc where
  results : List String
  errors : List String
  effects : List FSEffect
deriving DecidableEq

/-- One pass of the `for (const file of files)` loop (lines 378-397): stat
each entry (a failing stat escapes to the outer catch and aborts the
batch), skip non-files and non-matching names, convert the rest with no
output-path override, recording a success or failure line per file. -/
def batchGo (cfg : Config) (cx : Codecs) (fs : FS)
    (dir fmt : String) (pat : Option String) :
    List String → BatchAcc → Except DocError BatchAcc
  | [], acc => .ok acc
  | name :: rest, acc =>
    match fs (pathJoin dir name) with
    | none => .error (.fileNotFound (pathJoin dir name))
    | some f =>
      if f.isFile && patternOk pat name then
        match convertDocument cfg cx fs (pathJoin dir name) fmt none with
        | (.ok dest, effs) =>
          batchGo cfg cx fs dir fmt pat rest
            ⟨acc.results ++ [okLine name dest], acc.errors, acc.effects ++ effs⟩
        | (.error e, effs) =>
          batchGo cfg cx fs dir fmt pat rest
            ⟨acc.results, acc.errors ++ [errLine name e], acc.effects ++ effs⟩
      else
        batchGo cfg cx fs dir fmt pat rest acc

/-- `batch_convert` over a directory listing `files` (the result of
`fs.readdir(input_directory)`, in listing order). -/
def batchConvert (cfg : Config) (cx : Codecs) (fs : FS)
    (dir fmt : String) (pat : Option String) (files : List String) :
    Except DocError BatchAcc :=
  batchGo cfg cx fs dir fmt pat files ⟨[], [], []⟩

/-- Is a listed entry a regular file that passes the pattern filter? -/
def isMatchedIn (fs : FS) (dir : String) (pat : Option String) (name : String) : Bool :=
  match fs (pathJoin dir name) with
  | some f => f.isFile && patternOk pat name
  | none => false

/-- The single-file conversion performed for a matched entry (line 392):
note the absent output-path override. -/
def fileConv (cfg : Config) (cx : Codecs) (fs : FS) (dir fmt name : String) :
    Except DocError String × List FSEffect :=
  convertDocument cfg cx fs (pathJoin dir name) fmt none

/-- Did the entry's conversion succeed? -/
def isOkE (r : Except DocError String) : Bool :=
  match r with
  | .ok _ => true
  | .error _ => false

/-- Did the matched entry convert successfully? -/
def convertedOk (cfg : Config) (cx : Codecs) (fs : FS) (dir fmt name : String) : Bool :=
  isOkE (fileConv cfg cx fs dir fmt name).1

/-- The report line a matched entry contributes. -/
def outcomeLine (cfg : Config) (cx : Codecs) (fs : FS) (dir fmt name : String) : String :=
  match fileConv cfg cx fs dir fmt name with
  | (.ok dest, _) => okLine name dest
  | (.error e, _) => errLine name e

/-- The filesystem operations a matched entry contributes. -/
def fileEffects (cfg : Config) (cx : Codecs) (fs : FS) (dir fmt name : String) :
    List FSEffect :=
  (fileConv cfg cx fs dir fmt name).2

/-! ## Replaying effects against a store (for the overwrite claim) -/

/-- Apply one filesystem operation to a content store. -/
def applyEffect (store : String → Option String) : FSEffect → String → Option String
  | .ensureDir _ => store
  | .writeFile p c => fun q => if q = p then some c else store q

/-- Apply a list of filesystem operations in order. -/
def applyEffects (effs : List FSEffect) (store : String → Option String) :
    String → Option String :=
  effs.foldl applyEffect store

/-! ## Concrete fixtures for witnesses and counterexamples -/

/-- A concrete codec assignment (any one will do for the concrete runs;
claims about codec independence quantify over all of them). -/
def cx₀ : Codecs where
  pdfParse := fun _ => .error "Invalid PDF structure"
  mammothRawText := fun s => .ok (s, [])
  htmlBodyText := fun _ => none
  htmlTitle := fun _ => ""
  marked := fun s => s
  turndown := fun s => s
  generatePdf := fun s => .ok s

/-- A directory `d` with one unconvertible entry (unknown extension) before
one convertible text file. -/
def fs₁ : FS := fun p =>
  if p = "d/bad.xyz" then some ⟨true, 3, "zzz"⟩
  else if p = "d/good.txt" then some ⟨true, 5, "hello"⟩
  else none

/-- A directory `d` with two files sharing the base name `a`. -/
def fsAB : FS := fun p =>
  if p = "d/a.md" then some ⟨true, 1, "X"⟩
  else if p = "d/a.txt" then some ⟨true, 1, "Y"⟩
  else none

/-- A directory `d` with a file whose name has no extension. -/
def fsAx : FS := fun p =>
  if p = "d/axmd" then some ⟨true, 2, "mm"⟩
  else none

/-- A markdown file. -/
def fsMd : FS := fun p =>
  if p = "d/doc.md" then some ⟨true, 3, "# T"⟩
  else none

/-- A five-byte text file. -/
def fsBig : FS := fun p =>
  if p = "d/big.txt" then some ⟨true, 5, "aaaaa"⟩
  else none

/-- A four-byte text file. -/
def fsEdge : FS := fun p =>
  if p = "d/note.txt" then some ⟨true, 4, "abcd"⟩
  else none

/-- The default configuration with a 4-byte size limit. -/
def cfgSmall : Config :=
  { defaultConfig with max_file_size := 4 }

/-! ## Helper lemmas -/

/-- A successful `convertToPDF` returns the destination it was given and a
single write of the rendered buffer to it. -/
theorem convertToPDF_ok_shape (cx : Codecs) (c f pth : String)
    (r : String × List FSEffect) (h : convertToPDF cx c f pth = .ok r) :
    ∃ buf, r = (pth, [.writeFile pth buf]) := by
  simp only [convertToPDF] at h
  generalize cx.generatePdf (if f = "html" then c else convertToHTML cx c f) = res at h
  cases res with
  | ok buf =>
    refine ⟨buf, ?_⟩
    cases h
    rfl
  | error m => simp at h

/-- A document read from a path detected as `md`, within the size limit,
is the file content verbatim. -/
theorem readDocument_md (cfg : Config) (cx : Codecs) (fs : FS) (ip : String)
    (f : FSFile) (hfmt : detectFormat ip = "md") (hf : fs ip = some f)
    (hsz : f.size ≤ cfg.max_file_size) :
    readDocument cfg cx fs ip = .ok ⟨f.content, "md", .empty⟩ := by
  have hgt : ¬ f.size > cfg.max_file_size := by omega
  simp only [readDocument, hf, hfmt]
  rw [if_neg hgt, if_neg (by decide : ¬ ("md" : String) = "pdf"),
    if_neg (by decide : ¬ ("md" : String) = "docx"),
    if_neg (by decide : ¬ ("md" : String) = "html")]
  simp

/-! ## Claims -/

/-- C2 (confirmed): for every file whose size strictly exceeds
`max_file_size`, `readDocument` fails with the size-limit error uniformly
in the codecs — no codec is consulted — and `convertDocument` fails the
same way having performed no filesystem mutation. -/
theorem read_size_limit_first (cfg : Config) (fs : FS) (filePath : String)
    (f : FSFile) (hf : fs filePath = some f) (hsz : f.size > cfg.max_file_size) :
    (∀ cx : Codecs,
      readDocument cfg cx fs filePath = .error (.sizeLimitExceeded cfg.max_file_size))
    ∧ (∀ (cx : Codecs) (fmt : String) (o : Option String),
      convertDocument cfg cx fs filePath fmt o =
        (.error (.sizeLimitExceeded cfg.max_file_size), [])) := by
  have hread : ∀ cx : Codecs,
      readDocument cfg cx fs filePath = .error (.sizeLimitExceeded cfg.max_file_size) := by
    intro cx
    simp only [readDocument, hf]
    rw [if_pos hsz]
  refine ⟨hread, fun cx fmt o => ?_⟩
  simp only [convertDocument, hread cx]

/-- C2 witness: a 5-byte file against a 4-byte limit. -/
theorem read_size_limit_first_witness :
    readDocument cfgSmall cx₀ fsBig "d/big.txt" = .error (.sizeLimitExceeded 4)
    ∧ convertDocument cfgSmall cx₀ fsBig "d/big.txt" "md" none
        = (.error (.sizeLimitExceeded 4), []) :=
  ⟨(read_size_limit_first cfgSmall fsBig "d/big.txt" ⟨true, 5, "aaaaa"⟩
      (by decide) (by decide)).1 cx₀,
   (read_size_limit_first cfgSmall fsBig "d/big.txt" ⟨true, 5, "aaaaa"⟩
      (by decide) (by decide)).2 cx₀ "md" none⟩

/-- C8 (confirmed): the size comparison is strict — a file of size exactly
`max_file_size` is decoded normally (shown for a `txt` file), and no size
within the limit ever produces the size-limit error. -/
theorem read_size_limit_strict (cfg : Config) (cx : Codecs) (fs : FS)
    (filePath : String) (f : FSFile) (hf : fs filePath = some f) :
    (f.size = cfg.max_file_size → detectFormat filePath = "txt" →
      readDocument cfg cx fs filePath = .ok ⟨f.content, "txt", .empty⟩)
    ∧ (f.size ≤ cfg.max_file_size →
      readDocument cfg cx fs filePath ≠ .error (.sizeLimitExceeded cfg.max_file_size)) := by
  constructor
  · intro hsz hfmt
    have hgt : ¬ f.size > cfg.max_file_size := by omega
    simp only [readDocument, hf, hfmt]
    rw [if_neg hgt, if_neg (by decide : ¬ ("txt" : String) = "pdf"),
      if_neg (by decide : ¬ ("txt" : String) = "docx"),
      if_neg (by decide : ¬ ("txt" : String) = "html"),
      if_neg (by decide : ¬ ("txt" : String) = "md")]
    simp
  · intro hle
    have hgt : ¬ f.size > cfg.max_file_size := by omega
    simp only [readDocument, hf]
    rw [if_neg hgt]
    repeat' split
    all_goals simp

/-- C8 witness: a 4-byte text file at a 4-byte limit decodes normally. -/
theorem read_size_limit_strict_witness :
    readDocument cfgSmall cx₀ fsEdge "d/note.txt" = .ok ⟨"abcd", "txt", .empty⟩
    ∧ readDocument cfgSmall cx₀ fsEdge "d/note.txt"
        ≠ .error (.sizeLimitExceeded 4) :=
  ⟨(read_size_limit_strict cfgSmall cx₀ fsEdge "d/note.txt" ⟨true, 4, "abcd"⟩
      (by decide)).1 (by decide) (by decide),
   (read_size_limit_strict cfgSmall cx₀ fsEdge "d/note.txt" ⟨true, 4, "abcd"⟩
      (by decide)).2 (by decide)⟩

/-- C7 (confirmed): `preserve_formatting` is inert — two runs of
`convertDocument` differing only in that flag produce identical results
(same error-or-destination and same filesystem operations, hence same
written content). -/
theorem preserve_formatting_inert (cfg : Config) (b₁ b₂ : Bool) (cx : Codecs)
    (fs : FS) (ip fmt : String) (o : Option String) :
    convertDocument { cfg with preserve_formatting := b₁ } cx fs ip fmt o =
      convertDocument { cfg with preserve_formatting := b₂ } cx fs ip fmt o := rfl

/-- C4 (confirmed): `convertDocument` never succeeds for output format
`docx`; and whenever the input document reads successfully and `docx` is in
the configured output set (as it is by default), the failure is precisely
the conversion-not-implemented error, regardless of the input format. -/
theorem docx_always_not_implemented :
    (∀ (cfg : Config) (cx : Codecs) (fs : FS) (ip : String) (o : Option String),
      isOkE (convertDocument cfg cx fs ip "docx" o).1 = false)
    ∧ (∀ (cfg : Config) (cx : Codecs) (fs : FS) (ip : String) (o : Option String)
        (doc : Document),
      readDocument cfg cx fs ip = .ok doc →
      cfg.supported_formats.output.contains "docx" = true →
      (convertDocument cfg cx fs ip "docx" o).1 =
        .error (.conversionNotImplemented "docx")) := by
  constructor
  · intro cfg cx fs ip o
    simp only [convertDocument]
    split
    · simp [isOkE]
    · split
      · rw [if_neg (by decide : ¬ ("docx" : String) = "html"),
          if_neg (by decide : ¬ ("docx" : String) = "md"),
          if_neg (by decide : ¬ ("docx" : String) = "txt"),
          if_neg (by decide : ¬ ("docx" : String) = "pdf")]
        simp [isOkE]
      · simp [isOkE]
  · intro cfg cx fs ip o doc h1 h2
    simp only [convertDocument, h1]
    rw [if_pos h2,
      if_neg (by decide : ¬ ("docx" : String) = "html"),
      if_neg (by decide : ¬ ("docx" : String) = "md"),
      if_neg (by decide : ¬ ("docx" : String) = "txt"),
      if_neg (by decide : ¬ ("docx" : String) = "pdf")]

/-- C4 witness: a readable text file under the default configuration. -/
theorem docx_always_not_implemented_witness :
    (convertDocument defaultConfig cx₀ fs₁ "d/good.txt" "docx" none).1 =
      .error (.conversionNotImplemented "docx") :=
  docx_always_not_implemented.2 defaultConfig cx₀ fs₁ "d/good.txt" none
    ⟨"hello", "txt", .empty⟩ (by decide) (by decide)

/-- C5 (confirmed): a successful conversion's destination is the supplied
override when one is given and `{output_directory}/{base name}.{format}`
otherwise; with no override the destination lies inside the configured
output directory. -/
theorem convert_output_path (cfg : Config) (cx : Codecs) (fs : FS)
    (ip fmt : String) (o : Option String)
    (h : isOkE (convertDocument cfg cx fs ip fmt o).1 = true) :
    (convertDocument cfg cx fs ip fmt o).1 =
      .ok (o.getD (defaultOutputPath cfg ip fmt))
    ∧ (o = none →
      ∃ rest, o.getD (defaultOutputPath cfg ip fmt) =
        cfg.output_directory ++ "/" ++ rest) := by
  constructor
  · revert h
    simp only [convertDocument]
    split
    · intro h
      simp [isOkE] at h
    · split
      · split
        · intro _
          rfl
        · split
          · intro _
            rfl
          · split
            · intro _
              rfl
            · split
              · split
                · rename_i r heq
                  intro _
                  obtain ⟨buf, hr⟩ := convertToPDF_ok_shape _ _ _ _ _ heq
                  rw [hr]
                · intro h
                  simp [isOkE] at h
              · intro h
                simp [isOkE] at h
      · intro h
        simp [isOkE] at h
  · intro ho
    subst ho
    exact ⟨basenameNoExt ip ++ "." ++ fmt, rfl⟩

/-- C5 witness: converting a text file with no override lands in the
default output directory under the source's base name. -/
theorem convert_output_path_witness :
    (convertDocument defaultConfig cx₀ fs₁ "d/good.txt" "md" none).1 =
      .ok "./converted_documents/good.md"
    ∧ ((none : Option String) = none →
      ∃ rest, "./converted_documents/good.md" =
        "./converted_documents" ++ "/" ++ rest) :=
  convert_output_path defaultConfig cx₀ fs₁ "d/good.txt" "md" none (by decide)

/-- C6 (confirmed): converting a Markdown source to target `md` writes the
file content read from the input byte-for-byte (identity conversion). -/
theorem md_to_md_identity (cfg : Config) (cx : Codecs) (fs : FS) (ip : String)
    (f : FSFile) (hfmt : detectFormat ip = "md") (hf : fs ip = some f)
    (hsz : f.size ≤ cfg.max_file_size)
    (hout : cfg.supported_formats.output.contains "md" = true) :
    convertDocument cfg cx fs ip "md" none =
      (.ok (defaultOutputPath cfg ip "md"),
       [.ensureDir cfg.output_directory,
        .writeFile (defaultOutputPath cfg ip "md") f.content]) := by
  have hread := readDocument_md cfg cx fs ip f hfmt hf hsz
  simp only [convertDocument, hread]
  rw [if_pos hout, if_neg (by decide : ¬ ("md" : String) = "html")]
  simp [convertToMarkdown]

/-- C6 witness: a concrete Markdown file round-trips unchanged. -/
theorem md_to_md_identity_witness :
    convertDocument defaultConfig cx₀ fsMd "d/doc.md" "md" none =
      (.ok "./converted_documents/doc.md",
       [.ensureDir "./converted_documents",
        .writeFile "./converted_documents/doc.md" "# T"]) :=
  md_to_md_identity defaultConfig cx₀ fsMd "d/doc.md" ⟨true, 3, "# T"⟩
    (by decide) (by decide) (by decide) (by decide)

/-- C9 (confirmed): the only directory `convertDocument` ever ensures is
the configured `output_directory` — also when an explicit override path is
supplied, whose parent is never created — and every successful conversion
does ensure it. -/
theorem ensure_dir_only_output (cfg : Config) (cx : Codecs) (fs : FS)
    (ip fmt : String) (o : Option String) :
    (∀ d, FSEffect.ensureDir d ∈ (convertDocument cfg cx fs ip fmt o).2 →
      d = cfg.output_directory)
    ∧ (isOkE (convertDocument cfg cx fs ip fmt o).1 = true →
      FSEffect.ensureDir cfg.output_directory ∈ (convertDocument cfg cx fs ip fmt o).2) := by
  constructor
  · intro d
    simp only [convertDocument]
    split
    · simp
    · split
      · split
        · simp
        · split
          · simp
          · split
            · simp
            · split
              · split
                · rename_i r heq
                  obtain ⟨buf, hr⟩ := convertToPDF_ok_shape _ _ _ _ _ heq
                  rw [hr]
                  simp
                · simp
              · simp
      · simp
  · simp only [convertDocument]
    split
    · intro h
      simp [isOkE] at h
    · split
      · split
        · intro _
          simp
        · split
          · intro _
            simp
          · split
            · intro _
              simp
            · split
              · split
                · intro _
                  simp
                · intro h
                  simp [isOkE] at h
              · intro h
                simp [isOkE] at h
      · intro h
        simp [isOkE] at h

/-- C9 witness: with an override pointing elsewhere, the configured output
directory is still the one ensured. -/
theorem ensure_dir_only_output_witness :
    FSEffect.ensureDir defaultConfig.output_directory ∈
      (convertDocument defaultConfig cx₀ fs₁ "d/good.txt" "md"
        (some "elsewhere/out.md")).2 :=
  (ensure_dir_only_output defaultConfig cx₀ fs₁ "d/good.txt" "md"
    (some "elsewhere/out.md")).2 (by decide)

/-- Counting a Bool-partition of a list. -/
theorem length_filter_partition {α : Type} (p : α → Bool) (l : List α) :
    (l.filter p).length + (l.filter (fun a => !(p a))).length = l.length := by
  induction l with
  | nil => simp
  | cons a l ih =>
    cases h : p a <;> simp [List.filter_cons, h, ← ih] <;> omega

/-- Full characterization of the batch loop: when every listed entry can be
stated, the loop never fails, the success lines are exactly the matched
entries whose conversion succeeds (in listing order), the failure lines
exactly the matched entries whose conversion fails (in listing order), and
the filesystem operations are the per-file operations concatenated in
listing order. -/
theorem batchGo_spec (cfg : Config) (cx : Codecs) (fs : FS) (dir fmt : String)
    (pat : Option String) :
    ∀ (files : List String) (acc : BatchAcc),
      (∀ n ∈ files, (fs (pathJoin dir n)).isSome) →
      batchGo cfg cx fs dir fmt pat files acc =
        .ok ⟨acc.results ++
              (((files.filter (isMatchedIn fs dir pat)).filter
                (fun n => convertedOk cfg cx fs dir fmt n)).map
                (outcomeLine cfg cx fs dir fmt)),
             acc.errors ++
              (((files.filter (isMatchedIn fs dir pat)).filter
                (fun n => !(convertedOk cfg cx fs dir fmt n))).map
                (outcomeLine cfg cx fs dir fmt)),
             acc.effects ++
              ((files.filter (isMatchedIn fs dir pat)).map
                (fileEffects cfg cx fs dir fmt)).flatten⟩ := by
  intro files
  induction files with
  | nil =>
    intro acc h
    simp [batchGo]
  | cons n rest ih =>
    intro acc h
    have hn : (fs (pathJoin dir n)).isSome := h n (by simp)
    have hrest : ∀ m ∈ rest, (fs (pathJoin dir m)).isSome := fun m hm => h m (by simp [hm])
    obtain ⟨f, hf⟩ := Option.isSome_iff_exists.mp hn
    have hmatch : isMatchedIn fs dir pat n = (f.isFile && patternOk pat n) := by
      simp [isMatchedIn, hf]
    by_cases hc : (f.isFile && patternOk pat n) = true
    · rcases hcv : convertDocument cfg cx fs (pathJoin dir n) fmt none with ⟨res, effs⟩
      have hok : convertedOk cfg cx fs dir fmt n = isOkE res := by
        simp [convertedOk, fileConv, hcv]
      have heffs : fileEffects cfg cx fs dir fmt n = effs := by
        simp [fileEffects, fileConv, hcv]
      cases res with
      | ok dest =>
        have holine : outcomeLine cfg cx fs dir fmt n = okLine n dest := by
          simp [outcomeLine, fileConv, hcv]
        simp only [batchGo, hf, hc, if_true, hcv]
        rw [ih _ hrest]
        simp [List.filter_cons, hmatch, hc, hok, holine, heffs, isOkE, List.append_assoc]
      | error e =>
        have holine : outcomeLine cfg cx fs dir fmt n = errLine n e := by
          simp [outcomeLine, fileConv, hcv]
        simp only [batchGo, hf, hc, if_true, hcv]
        rw [ih _ hrest]
        simp [List.filter_cons, hmatch, hc, hok, holine, heffs, isOkE, List.append_assoc]
    · have hm : isMatchedIn fs dir pat n = false := by
        rw [hmatch]
        exact Bool.eq_false_iff.mpr hc
      simp only [batchGo, hf]
      rw [if_neg hc, ih _ hrest]
      simp [List.filter_cons, hm]

/-- C1 (corrected): over a directory listing whose entries all stat, the
batch always completes with exactly one outcome per matched regular file:
the success lines are exactly the matched files whose conversion succeeds
and the failure lines exactly the matched files whose conversion fails,
each group in directory-listing order, so the counts sum to the
matched-file count; a failing file never aborts the batch and never
prevents a later file from converting (its success line is still present).
The report sequence is successes first, then failures — not the
interleaved listing order the claim as stated requires (see the
counterexample). -/
theorem batch_total_outcomes (cfg : Config) (cx : Codecs) (fs : FS)
    (dir fmt : String) (pat : Option String) (files : List String)
    (h : ∀ n ∈ files, (fs (pathJoin dir n)).isSome) :
    ∃ out, batchConvert cfg cx fs dir fmt pat files = .ok out
      ∧ out.results = (((files.filter (isMatchedIn fs dir pat)).filter
            (fun n => convertedOk cfg cx fs dir fmt n)).map
            (outcomeLine cfg cx fs dir fmt))
      ∧ out.errors = (((files.filter (isMatchedIn fs dir pat)).filter
            (fun n => !(convertedOk cfg cx fs dir fmt n))).map
            (outcomeLine cfg cx fs dir fmt))
      ∧ out.results.length + out.errors.length =
          (files.filter (isMatchedIn fs dir pat)).length := by
  have hs := batchGo_spec cfg cx fs dir fmt pat files ⟨[], [], []⟩ h
  refine ⟨_, hs, ?_, ?_, ?_⟩
  · simp
  · simp
  · have hp := length_filter_partition (fun n => convertedOk cfg cx fs dir fmt n)
      (files.filter (isMatchedIn fs dir pat))
    simpa using hp

/-- C1 witness: a batch of one malformed and one well-formed file — two
outcomes, one success and one failure, and the later file still converts. -/
theorem batch_total_outcomes_witness :
    (∀ n ∈ ["bad.xyz", "good.txt"], (fs₁ (pathJoin "d" n)).isSome)
    ∧ ∃ out,
      batchConvert defaultConfig cx₀ fs₁ "d" "md" none ["bad.xyz", "good.txt"] = .ok out
      ∧ out.results = (((["bad.xyz", "good.txt"].filter (isMatchedIn fs₁ "d" none)).filter
            (fun n => convertedOk defaultConfig cx₀ fs₁ "d" "md" n)).map
            (outcomeLine defaultConfig cx₀ fs₁ "d" "md"))
      ∧ out.errors = (((["bad.xyz", "good.txt"].filter (isMatchedIn fs₁ "d" none)).filter
            (fun n => !(convertedOk defaultConfig cx₀ fs₁ "d" "md" n))).map
            (outcomeLine defaultConfig cx₀ fs₁ "d" "md"))
      ∧ out.results.length + out.errors.length =
          (["bad.xyz", "good.txt"].filter (isMatchedIn fs₁ "d" none)).length :=
  ⟨by decide,
   batch_total_outcomes defaultConfig cx₀ fs₁ "d" "md" none ["bad.xyz", "good.txt"]
     (by decide)⟩

/-- C1 counterexample: with listing `[bad.xyz, good.txt]` where the first
entry fails, the report sequence (all successes, then all failures) differs
from the per-file outcomes in directory-listing order, refuting the
"outcomes in directory-listing order" part of the claim as stated. -/
theorem batch_listing_order_counterexample :
    batchConvert defaultConfig cx₀ fs₁ "d" "md" none ["bad.xyz", "good.txt"] =
      .ok ⟨["✓ good.txt → good.md"],
           ["✗ bad.xyz: Unsupported file format: unknown"],
           [.ensureDir "./converted_documents",
            .writeFile "./converted_documents/good.md" "hello"]⟩
    ∧ ["✓ good.txt → good.md"] ++ ["✗ bad.xyz: Unsupported file format: unknown"] ≠
        (["bad.xyz", "good.txt"].filter (isMatchedIn fs₁ "d" none)).map
          (outcomeLine defaultConfig cx₀ fs₁ "d" "md") := by
  constructor
  · decide
  · decide

/-- C10 (confirmed): the batch loop supplies no output-path override, so a
converted file's destination depends only on its base name and the target
format — two matched inputs with the same base name target the same
destination, and in a concrete batch over `a.md` and `a.txt` the later
file's write overwrites the earlier one's. -/
theorem batch_same_base_overwrites :
    (∀ (cfg : Config) (n₁ n₂ fmt : String), basenameNoExt n₁ = basenameNoExt n₂ →
      defaultOutputPath cfg n₁ fmt = defaultOutputPath cfg n₂ fmt)
    ∧ batchConvert defaultConfig cx₀ fsAB "d" "md" none ["a.md", "a.txt"] =
        .ok ⟨["✓ a.md → a.md", "✓ a.txt → a.md"], [],
             [.ensureDir "./converted_documents",
              .writeFile "./converted_documents/a.md" "X",
              .ensureDir "./converted_documents",
              .writeFile "./converted_documents/a.md" "Y"]⟩
    ∧ applyEffects
        [.ensureDir "./converted_documents",
         .writeFile "./converted_documents/a.md" "X",
         .ensureDir "./converted_documents",
         .writeFile "./converted_documents/a.md" "Y"]
        (fun _ => none) "./converted_documents/a.md" = some "Y" := by
  refine ⟨?_, by decide, by decide⟩
  intro cfg n₁ n₂ fmt h
  unfold defaultOutputPath
  rw [h]

/-- C10 witness: `a.md` and `a.txt` share a base name and hence a default
destination. -/
theorem batch_same_base_overwrites_witness :
    basenameNoExt "d/a.md" = basenameNoExt "d/a.txt"
    ∧ defaultOutputPath defaultConfig "d/a.md" "md" =
        defaultOutputPath defaultConfig "d/a.txt" "md" :=
  ⟨by decide,
   batch_same_base_overwrites.1 defaultConfig "d/a.md" "d/a.txt" "md" (by decide)⟩

/-! ## Pattern-filter lemmas (claim C3) -/

theorem splitFirstStar_none : ∀ (l a : List Char), splitFirstStar l = (a, none) →
    a = l ∧ starFree l = true ∧ replaceFirstStar l = l := by
  intro l
  induction l with
  | nil =>
    intro a h
    simp [splitFirstStar] at h
    subst h
    simp [starFree, replaceFirstStar]
  | cons c r ih =>
    intro a h
    by_cases hc : c = '*'
    · subst hc
      simp [splitFirstStar] at h
    · rcases hsp : splitFirstStar r with ⟨a', o⟩
      simp [splitFirstStar, hc, hsp] at h
      obtain ⟨h1, h2⟩ := h
      obtain ⟨ha, hsf, hrep⟩ := ih a' (by rw [hsp, h2])
      subst h1
      simp [starFree, replaceFirstStar, hc, hsf, hrep, ha]

theorem splitFirstStar_some : ∀ (l a b : List Char), splitFirstStar l = (a, some b) →
    starFree a = true ∧ replaceFirstStar l = a ++ '.' :: '*' :: b := by
  intro l
  induction l with
  | nil =>
    intro a b h
    simp [splitFirstStar] at h
  | cons c r ih =>
    intro a b h
    by_cases hc : c = '*'
    · subst hc
      simp [splitFirstStar] at h
      obtain ⟨h1, h2⟩ := h
      subst h1
      subst h2
      simp [starFree, replaceFirstStar]
    · rcases hsp : splitFirstStar r with ⟨a', o⟩
      simp [splitFirstStar, hc, hsp] at h
      obtain ⟨h1, h2⟩ := h
      obtain ⟨hsf, hrep⟩ := ih a' b (by rw [hsp, h2])
      subst h1
      simp [starFree, replaceFirstStar, hc, hsf, hrep]

theorem rcompile_append : ∀ (a p : List Char), starFree a = true →
    (∀ c r, p = c :: r → c ≠ '*') →
    rcompile (a ++ p) = a.map tokOf ++ rcompile p := by
  intro a
  induction a with
  | nil => intro p _ _; simp
  | cons c a' ih =>
    intro p ha hp
    have hc : c ≠ '*' := by
      intro hcc
      simp [starFree, hcc] at ha
    have ha' : starFree a' = true := by
      simpa [starFree, hc] using ha
    cases a' with
    | nil =>
      cases p with
      | nil => simp [rcompile]
      | cons d r =>
        have hd : d ≠ '*' := hp d r rfl
        simp [rcompile, hd]
    | cons e a'' =>
      have he : e ≠ '*' := by
        intro hee
        simp [starFree, hee] at ha'
      show rcompile (c :: e :: (a'' ++ p)) = _
      rw [show rcompile (c :: e :: (a'' ++ p)) =
        tokOf c :: rcompile (e :: (a'' ++ p)) from by simp [rcompile, he]]
      rw [show (e :: (a'' ++ p)) = (e :: a'') ++ p from rfl, ih p ha' hp]
      simp

theorem rcompile_starfree (b : List Char) (h : starFree b = true) :
    rcompile b = b.map tokOf := by
  have := rcompile_append b [] h (by intro c r hcr; cases hcr)
  simpa [rcompile] using this

theorem tmatch_lits : ∀ (a sa : List Char), ciEqList a sa = true →
    sa.all notLineTerm = true →
    ∀ (ps : List RTok) (t : List Char),
    tmatch (a.map tokOf ++ ps) (sa ++ t) = tmatch ps t := by
  intro a
  induction a with
  | nil =>
    intro sa h _ ps t
    cases sa with
    | nil => simp
    | cons x xs => simp [ciEqList] at h
  | cons c a' ih =>
    intro sa h hsa ps t
    cases sa with
    | nil => simp [ciEqList] at h
    | cons x sa' =>
      have h' : ciEq c x = true ∧ ciEqList a' sa' = true := by
        simpa [ciEqList, Bool.and_eq_true] using h
      have hx : notLineTerm x = true ∧ sa'.all notLineTerm = true := by
        simpa using hsa
      by_cases hc : c = '.'
      · simp [tokOf, hc, tmatch, hx.1, ih sa' h'.2 hx.2]
      · simp [tokOf, hc, tmatch, h'.1, ih sa' h'.2 hx.2]

theorem tmatch_anyStar (ps : List RTok) : ∀ (m t : List Char),
    m.all notLineTerm = true → tmatch ps t = true →
    tmatch (.anyStar :: ps) (m ++ t) = true := by
  intro m
  induction m with
  | nil =>
    intro t _ h
    show tmatchStar (tmatch ps) notLineTerm t = true
    cases t with
    | nil => simpa [tmatchStar] using h
    | cons x xs => simp [tmatchStar, h]
  | cons y m' ih =>
    intro t hm h
    have hy : notLineTerm y = true ∧ m'.all notLineTerm = true := by
      simpa using hm
    show tmatchStar (tmatch ps) notLineTerm (y :: (m' ++ t)) = true
    simp only [tmatchStar]
    have hrec : tmatchStar (tmatch ps) notLineTerm (m' ++ t) = true := ih t hy.2 h
    simp [hrec, hy.1]

theorem rsearch_of_tmatch (p : List RTok) (s : List Char)
    (h : tmatch p s = true) : rsearch p s = true := by
  cases s with
  | nil => simpa [rsearch] using h
  | cons x xs => simp [rsearch, h]

theorem glob_implies_filter (p s : String)
    (hone : atMostOneStar p.data = true)
    (hs : s.data.all notLineTerm = true) (hg : globMatch p s = true) :
    fileMatches p s = true := by
  unfold globMatch at hg
  rcases hsp : splitFirstStar p.data with ⟨a, o⟩
  rw [hsp] at hg
  cases o with
  | none =>
    obtain ⟨ha, hsf, hrep⟩ := splitFirstStar_none p.data a hsp
    subst ha
    unfold fileMatches
    rw [hrep, rcompile_starfree _ hsf]
    apply rsearch_of_tmatch
    have := tmatch_lits _ s.data hg hs [] []
    simpa using this
  | some b =>
    obtain ⟨hsfa, hrep⟩ := splitFirstStar_some p.data a b hsp
    have hsfb : starFree b = true := by
      unfold atMostOneStar at hone
      rw [hsp] at hone
      exact hone
    simp only [Bool.and_eq_true, decide_eq_true_eq] at hg
    obtain ⟨⟨h1, h2⟩, h3⟩ := hg
    unfold fileMatches
    rw [hrep]
    have hcomp : rcompile (a ++ '.' :: '*' :: b) =
        a.map tokOf ++ (.anyStar :: b.map tokOf) := by
      rw [rcompile_append a ('.' :: '*' :: b) hsfa
        (by intro c r hcr; injection hcr with hc _; subst hc; decide)]
      congr 1
      rw [show rcompile ('.' :: '*' :: b) = starTokOf '.' :: rcompile b from by
        simp [rcompile]]
      rw [rcompile_starfree b hsfb]
      simp [starTokOf]
    rw [hcomp]
    set n := s.data with hn
    have hall : ∀ x ∈ n, notLineTerm x = true := by
      simpa [List.all_eq_true] using hs
    have htake : (n.take a.length).all notLineTerm = true := by
      rw [List.all_eq_true]
      intro x hx
      exact hall x (List.mem_of_mem_take hx)
    have hdropall : (n.drop (n.length - b.length)).all notLineTerm = true := by
      rw [List.all_eq_true]
      intro x hx
      exact hall x (List.mem_of_mem_drop hx)
    have hmid : ((n.drop a.length).take (n.length - b.length - a.length)).all
        notLineTerm = true := by
      rw [List.all_eq_true]
      intro x hx
      exact hall x (List.mem_of_mem_drop (List.mem_of_mem_take hx))
    have hdec : n = n.take a.length ++
        ((n.drop a.length).take (n.length - b.length - a.length) ++
          n.drop (n.length - b.length)) := by
      have t1 : n = n.take a.length ++ n.drop a.length :=
        (List.take_append_drop _ _).symm
      have t2 : n.drop a.length =
          (n.drop a.length).take (n.length - b.length - a.length) ++
            (n.drop a.length).drop (n.length - b.length - a.length) :=
        (List.take_append_drop _ _).symm
      have t3 : (n.drop a.length).drop (n.length - b.length - a.length) =
          n.drop (n.length - b.length) := by
        rw [List.drop_drop]
        congr 1
        omega
      rw [← t3]
      nth_rewrite 1 [t1]
      rw [← t2]
    apply rsearch_of_tmatch
    rw [hdec, tmatch_lits a _ h1 htake]
    exact tmatch_anyStar (b.map tokOf) _ _ hmid (by
      have := tmatch_lits b _ h2 hdropall [] []
      simpa using this)

/-- C3 (corrected, amended form): the filter replaces only the first `*`
with `.*` and tests the result as a case-insensitive, unanchored regular
expression whose `.` does not cross line terminators; under that semantics
the claim's concrete examples hold (`*.md` matches `notes.md` and
`README.md` and rejects `notes.txt`), and for patterns of plain characters
with at most one wildcard every glob match of a line-terminator-free name
is still accepted — but the converse of the claimed iff fails (see the
counterexample). -/
theorem pattern_filter_amended :
    fileMatches "*.md" "notes.md" = true
    ∧ fileMatches "*.md" "README.md" = true
    ∧ fileMatches "*.md" "notes.txt" = false
    ∧ (∀ p s : String, p.data.all plainChar = true → atMostOneStar p.data = true →
        s.data.all notLineTerm = true →
        globMatch p s = true → fileMatches p s = true) :=
  ⟨by decide, by decide, by decide,
   fun p s _ hone hnl hg => glob_implies_filter p s hone hnl hg⟩

/-- C3 witness: a case-insensitive glob match accepted by the filter. -/
theorem pattern_filter_amended_witness :
    ("*.md".data.all plainChar = true ∧ atMostOneStar "*.md".data = true
      ∧ "Notes.MD".data.all notLineTerm = true
      ∧ globMatch "*.md" "Notes.MD" = true)
    ∧ fileMatches "*.md" "Notes.MD" = true :=
  ⟨⟨by decide, by decide, by decide, by decide⟩,
   pattern_filter_amended.2.2.2 "*.md" "Notes.MD" (by decide) (by decide)
     (by decide) (by decide)⟩

/-- C3 counterexample: under pattern `*.md` the filter accepts the name
`axmd` — the compiled pattern's `.` matches any character, not a literal
dot — while the claimed glob semantics reject it; the batch indeed
processes such a file (it gets an outcome instead of being skipped).  So
"processed iff the pattern matches with `*` as the only wildcard and every
other character literal" is false as stated. -/
theorem pattern_filter_counterexample :
    fileMatches "*.md" "axmd" = true
    ∧ globMatch "*.md" "axmd" = false
    ∧ batchConvert defaultConfig cx₀ fsAx "d" "md" (some "*.md") ["axmd"] =
        .ok ⟨[], ["✗ axmd: Unsupported file format: unknown"], []⟩ :=
  ⟨by decide, by decide, by decide⟩

end DocConv
